import Mathlib

/-!
Shallow embedding of `src/neuroshare_mcd.py`: the `MCDFile` accessor class and
the `MCD2HDF5Converter`, together with a model of their external collaborators
(the filesystem, the neuroshare native reader binding, the h5py container
writer).  Numeric scalars that are floating-point doubles in the binding
(timestamps, sample rates, signal values) are modelled as `Int` stand-ins: no
claim below depends on their arithmetic, only on lengths, ordering and
structure.
-/

namespace MCD2DH5

/-- Error taxonomy of the wrapper, following spec section 7.  Each constructor
stands for the Python exception raised at the corresponding source line:
`notFound` is `FileNotFoundError` (or a native out-of-range entity id),
`openError` is the `RuntimeError` of `_open_file`, `notOpen` is
`RuntimeError("File is not open")`, `invalidArgument` is the `ValueError` for
an unrecognized symbolic type name, `typeMismatch` is the
`ValueError("Entity ... is not a ... entity")`, `outOfRange` is the native
binding's error for an index past `item_count`, `groupExists` is the h5py
error for creating a group whose name already exists, and
`dependencyMissing` is the `ImportError` for a missing h5py. -/
inductive Err where
  | notFound
  | openError
  | notOpen
  | invalidArgument
  | typeMismatch
  | outOfRange
  | groupExists
  | dependencyMissing
deriving DecidableEq

/-- A Python value attached to an event item: numeric, or some other payload
(making the collected value list heterogeneous). -/
inductive PyValue where
  | num (n : Int)
  | other (s : String)
deriving DecidableEq

/-- One raw segment item as surfaced by the native binding's
`SegmentEntity.get_data(index)`: waveform matrix, timestamp, sample count and
spike-sorting unit id. -/
structure SegRaw where
  data : List (List Int)
  timestamp : Int
  sample_count : Nat
  unit_id : Int
deriving DecidableEq

/-- Model of one native entity as surfaced by the neuroshare binding (the
external collaborator of spec section 2).  It carries the attributes the
wrapper reads (`label`, `entity_type`, metadata scalars) and, per entity
type, the underlying item list that the binding's `get_data` serves. -/
structure NSEntity where
  label : String
  entity_type : Int
  analog_samples : List Int
  analog_times : List Int
  events : List (Int × PyValue)
  segs : List SegRaw
  neural_times : List Int
  event_type : Int
  sample_rate : Int
  units : String
  min_value : Int
  max_value : Int
  resolution : Int
  location_x : Int
  location_y : Int
  location_z : Int
  source_count : Nat
  max_sample_count : Nat
  metadata_raw : List (String × Int)
deriving DecidableEq

/-- Entity type constant `ENTITY_UNKNOWN = 0` of class `MCDFile`. -/
def ENTITY_UNKNOWN : Int := 0

/-- Entity type constant `ENTITY_EVENT = 1` of class `MCDFile`. -/
def ENTITY_EVENT : Int := 1

/-- Entity type constant `ENTITY_ANALOG = 2` of class `MCDFile`. -/
def ENTITY_ANALOG : Int := 2

/-- Entity type constant `ENTITY_SEGMENT = 3` of class `MCDFile`. -/
def ENTITY_SEGMENT : Int := 3

/-- Entity type constant `ENTITY_NEURAL = 4` of class `MCDFile`. -/
def ENTITY_NEURAL : Int := 4

/-- The `ENTITY_TYPE_NAMES` dictionary of class `MCDFile`. -/
def ENTITY_TYPE_NAMES : List (Int × String) :=
  [(0, "unknown"), (1, "event"), (2, "analog"), (3, "segment"), (4, "neural")]

/-- The lookup `ENTITY_TYPE_NAMES.get(t, "unknown")`, as used in `list_entities` and
`get_entity_info`. -/
def typeName (t : Int) : String :=
  (ENTITY_TYPE_NAMES.lookup t).getD "unknown"

/-- The inverted name map `{v: k for k, v in ENTITY_TYPE_NAMES.items()}`
built inside `get_entities_by_type` (all names are distinct, so the
comprehension keeps every pair). -/
def type_map : List (String × Int) :=
  ENTITY_TYPE_NAMES.map (fun p => (p.2, p.1))

/-- Python's `str.lower()` applied to a type-name argument, modelled as a
character-wise lowering of the string. -/
def pyLower (s : String) : String :=
  String.mk (s.data.map Char.toLower)

/-- The binding's `entity.item_count` attribute: the number of data items of
the entity's own kind (spec section 3: samples, events, or segments
depending on type). -/
def NSEntity.item_count (e : NSEntity) : Nat :=
  if e.entity_type = ENTITY_EVENT then e.events.length
  else if e.entity_type = ENTITY_ANALOG then e.analog_samples.length
  else if e.entity_type = ENTITY_SEGMENT then e.segs.length
  else if e.entity_type = ENTITY_NEURAL then e.neural_times.length
  else 0

/-- Native `EventEntity.get_data(index)`: the `(timestamp, value)` pair at
`index`, raising for an index past the item list. -/
def NSEntity.eventGetData (e : NSEntity) (i : Nat) : Except Err (Int × PyValue) :=
  match e.events.get? i with
  | some p => .ok p
  | none => .error .outOfRange

/-- Native `SegmentEntity.get_data(index)`: the raw segment at `index`,
raising the binding's out-of-range error for `index ≥ item_count` (spec
sections 4.1 and 8: the index bound is enforced by the native binding, which
the wrapper calls without its own check). -/
def NSEntity.segGetData (e : NSEntity) (i : Nat) :
    Except Err (List (List Int) × Int × Nat × Int) :=
  match e.segs.get? i with
  | some s => .ok (s.data, s.timestamp, s.sample_count, s.unit_id)
  | none => .error .outOfRange

/-- Native `AnalogEntity.get_data(start_index, count)`: a slice of the sample
and timestamp arrays together with the continuous-sample count; a negative
`count` reads to the end of the entity. -/
def NSEntity.analogGetData (e : NSEntity) (start count : Int) :
    Except Err (List Int × List Int × Nat) :=
  if start < 0 ∨ (e.analog_samples.length : Int) < start then .error .outOfRange
  else
    let s := start.toNat
    let n := if count < 0 then e.analog_samples.length - s
             else min count.toNat (e.analog_samples.length - s)
    .ok ((e.analog_samples.drop s).take n, (e.analog_times.drop s).take n, n)

/-- Native `NeuralEntity.get_data(start_index, count)`: a slice of the spike
timestamp array. -/
def NSEntity.neuralGetData (e : NSEntity) (start count : Int) :
    Except Err (List Int) :=
  if start < 0 ∨ (e.neural_times.length : Int) < start then .error .outOfRange
  else .ok ((e.neural_times.drop start.toNat).take count.toNat)

/-- Model of one open native file as surfaced by the neuroshare binding:
the file-level attributes the wrapper reads plus the entity table. -/
structure NSFile where
  file_type : String
  time_stamp_resolution : Int
  time_span : Int
  app_name : String
  comment : String
  metadata_raw : List (String × Int)
  entities : List NSEntity
deriving DecidableEq

/-- Native `file.get_entity(i)`: the entity at id `i`, raising for an
out-of-range id (spec section 4.1 maps that native failure to NotFound). -/
def NSFile.get_entity (f : NSFile) (i : Nat) : Except Err NSEntity :=
  match f.entities.get? i with
  | some e => .ok e
  | none => .error .notFound

/-- The wrapper state of one `MCDFile` instance: `filename`, the resolved
`library_path`, and the `_file` / `_lib` handles (`none` when unset). -/
structure MCDFile where
  filename : String
  library_path : String
  file : Option NSFile
  lib : Option Unit

/-- Embeds `MCDFile.close`: drops the `_file` reference when present and clears
`_lib`; extensionally this sets both handles to `None`. -/
def MCDFile.close (m : MCDFile) : MCDFile :=
  { m with file := none, lib := none }

/-- The calendar fields assembled by `MCDFile.info` from `metadata_raw`. -/
structure DateInfo where
  year : Int
  month : Int
  day : Int
  hour : Int
  minute : Int
  second : Int
deriving DecidableEq

/-- The dictionary returned by `MCDFile.info`. -/
structure FileInfo where
  file_type : String
  entity_count : Nat
  time_stamp_resolution : Int
  time_span : Int
  app_name : String
  comment : String
  date : DateInfo
deriving DecidableEq

/-- Embeds `MCDFile.info`: raises NotOpen on a closed handle, otherwise packages
the native file attributes and the `Time_*` metadata fields. -/
def MCDFile.info (m : MCDFile) : Except Err FileInfo :=
  match m.file with
  | none => .error .notOpen
  | some f => .ok
      { file_type := f.file_type
        entity_count := f.entities.length
        time_stamp_resolution := f.time_stamp_resolution
        time_span := f.time_span
        app_name := f.app_name
        comment := f.comment
        date :=
          { year := (f.metadata_raw.lookup "Time_Year").getD 0
            month := (f.metadata_raw.lookup "Time_Month").getD 0
            day := (f.metadata_raw.lookup "Time_Day").getD 0
            hour := (f.metadata_raw.lookup "Time_Hour").getD 0
            minute := (f.metadata_raw.lookup "Time_Min").getD 0
            second := (f.metadata_raw.lookup "Time_Sec").getD 0 } }

/-- One element of the list returned by `MCDFile.list_entities`. -/
structure EntitySummary where
  id : Nat
  label : String
  type : Int
  type_name : String
  item_count : Nat
deriving DecidableEq

/-- The summary dictionary `list_entities` builds for entity `e` at id `i`. -/
def mkSummary (i : Nat) (e : NSEntity) : EntitySummary :=
  { id := i
    label := e.label
    type := e.entity_type
    type_name := typeName e.entity_type
    item_count := e.item_count }

/-- The list built by the `for i in range(self._file.entity_count)` loop of
`list_entities`: one summary per entity id, in id order. -/
def summariesOf (f : NSFile) : List EntitySummary :=
  f.entities.enum.map (fun p => mkSummary p.1 p.2)

/-- Embeds `MCDFile.list_entities`: raises NotOpen on a closed handle, otherwise one
summary per entity id in `[0, entity_count)`, in id order (the loop
`for i in range(self._file.entity_count)`). -/
def MCDFile.list_entities (m : MCDFile) : Except Err (List EntitySummary) :=
  match m.file with
  | none => .error .notOpen
  | some f => .ok (summariesOf f)

/-- Embeds `MCDFile.get_entities_by_type`: a string argument is lowercased and
resolved through the inverted name map, raising the invalid-type ValueError
when absent; a numeric argument is used as-is with no validation.  Then
`list_entities()` is filtered on `e["type"] == type_num`, preserving order.
Note the source performs the string validation before calling
`list_entities` (so before the open-handle check). -/
def MCDFile.get_entities_by_type (m : MCDFile) (entity_type : String ⊕ Int) :
    Except Err (List EntitySummary) :=
  match
    (match entity_type with
     | .inl s =>
        match type_map.lookup (pyLower s) with
        | none => Except.error Err.invalidArgument
        | some k => Except.ok k
     | .inr n => Except.ok n) with
  | .error e => .error e
  | .ok type_num =>
    match m.list_entities with
    | .error e => .error e
    | .ok all => .ok (all.filter (fun e => e.type == type_num))

/-- The dictionary returned by `MCDFile.get_entity_info`: base fields plus
the type-specific metadata block attached only when the type matches
(analog: sample_rate, min, max, units, resolution; segment: source_count,
max_sample_count, sample_rate). -/
structure EntityDetail where
  id : Nat
  label : String
  type : Int
  type_name : String
  item_count : Nat
  metadata_raw : List (String × Int)
  analog_meta : Option (Int × Int × Int × String × Int)
  segment_meta : Option (Nat × Nat × Int)
deriving DecidableEq

/-- Embeds `MCDFile.get_entity_info`: NotOpen on a closed handle; NotFound (from the
native binding) on a bad id; otherwise base fields plus the type-matched
metadata block. -/
def MCDFile.get_entity_info (m : MCDFile) (entity_id : Nat) :
    Except Err EntityDetail :=
  match m.file with
  | none => .error .notOpen
  | some f =>
    match f.get_entity entity_id with
    | .error e => .error e
    | .ok entity => .ok
        { id := entity_id
          label := entity.label
          type := entity.entity_type
          type_name := typeName entity.entity_type
          item_count := entity.item_count
          metadata_raw := entity.metadata_raw
          analog_meta :=
            if entity.entity_type = ENTITY_ANALOG then
              some (entity.sample_rate, entity.min_value, entity.max_value,
                    entity.units, entity.resolution)
            else none
          segment_meta :=
            if entity.entity_type = ENTITY_SEGMENT then
              some (entity.source_count, entity.max_sample_count,
                    entity.sample_rate)
            else none }

/-- The dictionary returned by `MCDFile.get_analog_data` (the nested
`metadata` sub-dictionary is flattened into fields). -/
structure AnalogRecord where
  data : List Int
  timestamps : List Int
  continuous_count : Nat
  sample_rate : Int
  units : String
  label : String
  min_value : Int
  max_value : Int
  resolution : Int
  location_x : Int
  location_y : Int
  location_z : Int
deriving DecidableEq

/-- Embeds `MCDFile.get_analog_data`: NotOpen check, native entity lookup, the
type-mismatch ValueError when the entity is not analog, then the native
read. -/
def MCDFile.get_analog_data (m : MCDFile) (entity_id : Nat)
    (start_index count : Int) : Except Err AnalogRecord :=
  match m.file with
  | none => .error .notOpen
  | some f =>
    match f.get_entity entity_id with
    | .error e => .error e
    | .ok entity =>
      if entity.entity_type ≠ ENTITY_ANALOG then .error .typeMismatch
      else
        match entity.analogGetData start_index count with
        | .error e => .error e
        | .ok (data, timestamps, cont_count) => .ok
            { data := data
              timestamps := timestamps
              continuous_count := cont_count
              sample_rate := entity.sample_rate
              units := entity.units
              label := entity.label
              min_value := entity.min_value
              max_value := entity.max_value
              resolution := entity.resolution
              location_x := entity.location_x
              location_y := entity.location_y
              location_z := entity.location_z }

/-- The `values` field of an event record: a homogeneous numeric array when
`np.array(values)` succeeds, otherwise the original Python list kept
unchanged. -/
inductive EventValues where
  | homogeneous (a : List Int)
  | heterogeneous (l : List PyValue)
deriving DecidableEq

/-- The underlying ordered value sequence of either representation. -/
def EventValues.asList : EventValues → List PyValue
  | .homogeneous a => a.map PyValue.num
  | .heterogeneous l => l

/-- Models `np.array(values)` on the collected event values: succeeds exactly when
every value is numeric (the source comment: "Keep as list if values are
heterogeneous"). -/
def toNumArray : List PyValue → Option (List Int)
  | [] => some []
  | .num n :: rest => (toNumArray rest).map (fun a => n :: a)
  | .other _ :: _ => none

/-- The dictionary returned by `MCDFile.get_event_data`. -/
structure EventRecord where
  timestamps : List Int
  values : EventValues
  event_type : Int
  label : String
deriving DecidableEq

/-- The `for i in range(n)` loop pattern of the accessors: apply a fallible
native read to each index in order, collecting results and propagating the
first exception. -/
def exceptMap {β : Type} (F : Nat → Except Err β) : List Nat → Except Err (List β)
  | [] => .ok []
  | i :: t =>
    match F i with
    | .error e => .error e
    | .ok b =>
      match exceptMap F t with
      | .error e => .error e
      | .ok bs => .ok (b :: bs)

/-- Embeds `MCDFile.get_event_data`: NotOpen check, entity lookup, type-mismatch
check, then the loop `for i in range(entity.item_count)` collecting
`(timestamp, value)` pairs in index order, and the `np.array` conversion
attempt whose failure is swallowed (`except: pass`). -/
def MCDFile.get_event_data (m : MCDFile) (entity_id : Nat) :
    Except Err EventRecord :=
  match m.file with
  | none => .error .notOpen
  | some f =>
    match f.get_entity entity_id with
    | .error e => .error e
    | .ok entity =>
      if entity.entity_type ≠ ENTITY_EVENT then .error .typeMismatch
      else
        match exceptMap (fun i => entity.eventGetData i)
            (List.range entity.item_count) with
        | .error e => .error e
        | .ok pairs => .ok
            { timestamps := pairs.map Prod.fst
              values :=
                match toNumArray (pairs.map Prod.snd) with
                | some a => .homogeneous a
                | none => .heterogeneous (pairs.map Prod.snd)
              event_type := entity.event_type
              label := entity.label }

/-- The dictionary returned by `MCDFile.get_segment_data`. -/
structure SegmentRecord where
  data : List (List Int)
  timestamp : Int
  sample_count : Nat
  unit_id : Int
  source_count : Nat
  sample_rate : Int
  label : String
deriving DecidableEq

/-- Embeds `MCDFile.get_segment_data`: NotOpen check, entity lookup, type-mismatch
check, then the native `entity.get_data(index)` (which supplies the
out-of-range failure for `index ≥ item_count`). -/
def MCDFile.get_segment_data (m : MCDFile) (entity_id : Nat) (index : Nat) :
    Except Err SegmentRecord :=
  match m.file with
  | none => .error .notOpen
  | some f =>
    match f.get_entity entity_id with
    | .error e => .error e
    | .ok entity =>
      if entity.entity_type ≠ ENTITY_SEGMENT then .error .typeMismatch
      else
        match entity.segGetData index with
        | .error e => .error e
        | .ok (data, timestamp, sample_count, unit_id) => .ok
            { data := data
              timestamp := timestamp
              sample_count := sample_count
              unit_id := unit_id
              source_count := entity.source_count
              sample_rate := entity.sample_rate
              label := entity.label }

/-- Embeds `MCDFile.get_all_segments`: NotOpen check, entity lookup, type-mismatch
check, then the loop `for i in range(entity.item_count)` appending
`self.get_segment_data(entity_id, i)`. -/
def MCDFile.get_all_segments (m : MCDFile) (entity_id : Nat) :
    Except Err (List SegmentRecord) :=
  match m.file with
  | none => .error .notOpen
  | some f =>
    match f.get_entity entity_id with
    | .error e => .error e
    | .ok entity =>
      if entity.entity_type ≠ ENTITY_SEGMENT then .error .typeMismatch
      else exceptMap (fun i => m.get_segment_data entity_id i)
             (List.range entity.item_count)

/-- The dictionary returned by `MCDFile.get_neural_data`. -/
structure NeuralRecord where
  timestamps : List Int
  label : String
deriving DecidableEq

/-- Embeds `MCDFile.get_neural_data`: NotOpen check, entity lookup, type-mismatch
check, the `count < 0` sentinel replaced by `item_count`, then the native
read. -/
def MCDFile.get_neural_data (m : MCDFile) (entity_id : Nat)
    (start_index count : Int) : Except Err NeuralRecord :=
  match m.file with
  | none => .error .notOpen
  | some f =>
    match f.get_entity entity_id with
    | .error e => .error e
    | .ok entity =>
      if entity.entity_type ≠ ENTITY_NEURAL then .error .typeMismatch
      else
        match entity.neuralGetData start_index
            (if count < 0 then (entity.item_count : Int) else count) with
        | .error e => .error e
        | .ok data => .ok { timestamps := data, label := entity.label }

/-- The external environment of the wrapper: the filesystem existence test
(`os.path.exists`), the result of the `_find_library_path` search (a walk
over platform-dependent candidate locations, modelled as an oracle whose
result is a resolved path string, empty when falsy), the native
`ns.Library` loader, the native `ns.File` opener, and the availability of
the h5py dependency / writability of the destination container. -/
structure Env where
  path_exists : String → Bool
  find_library : Option String → String
  load_library : String → Option Unit
  native_open : String → Except String NSFile
  h5py_available : Bool
  h5_writable : Bool

/-- Embeds `MCDFile._open_file`: when a library path was resolved and exists, try
`ns.Library` (a failure falls back to plain `ns.File` and returns); then
open via `ns.File`.  Any escaping exception becomes the
`RuntimeError("Failed to open MCD file")`, modelled as `openError`. -/
def open_file_model (env : Env) (filename lp : String) :
    Except Err (Option NSFile × Option Unit) :=
  if lp ≠ "" ∧ env.path_exists lp = true then
    match env.load_library lp with
    | some u =>
      match env.native_open filename with
      | .ok f => .ok (some f, some u)
      | .error _ => .error .openError
    | none =>
      match env.native_open filename with
      | .ok f => .ok (some f, none)
      | .error _ => .error .openError
  else
    match env.native_open filename with
    | .ok f => .ok (some f, none)
    | .error _ => .error .openError

/-- Embeds `MCDFile.__init__`: the `os.path.exists` check raising
`FileNotFoundError` comes first, before the library search and before any
call into the native binding; then `_find_library_path` resolves the
library and `_open_file` opens the handle. -/
def mcd_init (env : Env) (filename : String) (library_path : Option String) :
    Except Err MCDFile :=
  if env.path_exists filename = true then
    match open_file_model env filename (env.find_library library_path) with
    | .ok fl => .ok
        { filename := filename
          library_path := env.find_library library_path
          file := fl.1
          lib := fl.2 }
    | .error e => .error e
  else .error .notFound

/-- The `label.replace("/", "_")` transform of the converter (a
single-character pattern, hence a character substitution). -/
def sanitizeLabel (s : String) : String :=
  String.mk (s.data.map (fun c => if c = '/' then '_' else c))

/-- An HDF5 attribute value written by the converter. -/
inductive AttrVal where
  | s (v : String)
  | n (v : Int)
  | c (v : Nat)
deriving DecidableEq

/-- One serialized segment child group (`segment_%04d`): data dataset plus
timestamp and unit_id attributes. -/
structure H5Seg where
  data : List (List Int)
  timestamp : Int
  unit_id : Int
deriving DecidableEq

/-- The destination container state: file-level attributes and the four
top-level groups, each a name-keyed association list of child groups (h5py
refuses to create a group whose name already exists). -/
structure H5File where
  attrs : List (String × AttrVal)
  event_groups : List (String × (List Int × Option (List Int)))
  analog_groups : List (String × (List Int × List Int × Int × String))
  segment_groups : List (String × List H5Seg)
  neural_groups : List (String × List Int)
deriving DecidableEq

/-- Whether a child group of the given name already exists. -/
def hasGroup {α : Type} (l : List (String × α)) (name : String) : Bool :=
  (l.lookup name).isSome

/-- The file-level attributes written from `info()`, skipping the composite
`date` field (`if key != "date"`). -/
def infoAttrs (i : FileInfo) : List (String × AttrVal) :=
  [("file_type", .s i.file_type),
   ("entity_count", .c i.entity_count),
   ("time_stamp_resolution", .n i.time_stamp_resolution),
   ("time_span", .n i.time_span),
   ("app_name", .s i.app_name),
   ("comment", .s i.comment)]

/-- The body of the converter's per-entity `try` block: dispatch on the
entity type (an unmatched type code converts nothing), read through the
typed accessor, then create the child group (failing when the sanitized
label already exists) and its datasets.  For events the values dataset is
created only when the values are a homogeneous numeric array
(`isinstance(data["values"], np.ndarray)`). -/
def convert_entity (m : MCDFile) (h5 : H5File) (i : EntitySummary) :
    Except Err H5File :=
  let label := sanitizeLabel i.label
  if i.type == ENTITY_EVENT then
    match m.get_event_data i.id with
    | .error e => .error e
    | .ok data =>
      if hasGroup h5.event_groups label then .error .groupExists
      else .ok { h5 with event_groups := h5.event_groups ++
          [(label, (data.timestamps,
            match data.values with
            | .homogeneous a => some a
            | .heterogeneous _ => none))] }
  else if i.type == ENTITY_ANALOG then
    match m.get_analog_data i.id 0 (-1) with
    | .error e => .error e
    | .ok data =>
      if hasGroup h5.analog_groups label then .error .groupExists
      else .ok { h5 with analog_groups := h5.analog_groups ++
          [(label, (data.data, data.timestamps, data.sample_rate,
                    data.units))] }
  else if i.type == ENTITY_SEGMENT then
    match m.get_all_segments i.id with
    | .error e => .error e
    | .ok segments =>
      if hasGroup h5.segment_groups label then .error .groupExists
      else .ok { h5 with segment_groups := h5.segment_groups ++
          [(label, segments.map (fun s =>
              { data := s.data, timestamp := s.timestamp,
                unit_id := s.unit_id }))] }
  else if i.type == ENTITY_NEURAL then
    match m.get_neural_data i.id 0 (-1) with
    | .error e => .error e
    | .ok data =>
      if hasGroup h5.neural_groups label then .error .groupExists
      else .ok { h5 with neural_groups := h5.neural_groups ++
          [(label, data.timestamps)] }
  else .ok h5

/-- One observable action of the converter: a progress-callback invocation,
a successfully serialized entity, or the warning printed when one entity's
conversion raised. -/
inductive ConvEvent where
  | progress (current total : Nat) (msg : String)
  | converted (label : String)
  | warned (label : String)
deriving DecidableEq

/-- One iteration of the converter's entity loop: the progress callback is
invoked first (with the entity's position, the total and the raw label),
then the `try` body runs; an exception is caught and logged as a warning,
leaving the container state unchanged, and the loop moves on. -/
def convertStep (m : MCDFile) (total : Nat) (st : H5File × List ConvEvent)
    (p : Nat × EntitySummary) : H5File × List ConvEvent :=
  let st2 := (st.1,
    st.2 ++ [ConvEvent.progress p.1 total ("Converting " ++ p.2.label)])
  match convert_entity m st2.1 p.2 with
  | .ok h5 => (h5, st2.2 ++ [ConvEvent.converted (sanitizeLabel p.2.label)])
  | .error _ => (st2.1, st2.2 ++ [ConvEvent.warned (sanitizeLabel p.2.label)])

/-- The converter's `for i, entity_info in enumerate(entities)` loop. -/
def convertLoop (m : MCDFile) (total : Nat) (st : H5File × List ConvEvent)
    (l : List (Nat × EntitySummary)) : H5File × List ConvEvent :=
  l.foldl (convertStep m total) st

/-- Embeds `MCD2HDF5Converter.convert`: the h5py import, the source open
(`with MCDFile(...)`), the destination create (`with h5py.File(..., "w")`),
the `info()` attributes, the four empty groups, the entity loop, and the
final completion callback `(total, total, "Conversion complete")`.  The
event list records the calls a supplied progress callback would receive,
interleaved with the per-entity outcomes. -/
def convert (env : Env) (mcd_filename : String) :
    Except Err (H5File × List ConvEvent) :=
  if env.h5py_available = true then
    match mcd_init env mcd_filename none with
    | .error e => .error e
    | .ok m =>
      if env.h5_writable = true then
        match m.info with
        | .error e => .error e
        | .ok fi =>
          match m.list_entities with
          | .error e => .error e
          | .ok entities =>
            let st := convertLoop m entities.length
              ({ attrs := infoAttrs fi
                 event_groups := []
                 analog_groups := []
                 segment_groups := []
                 neural_groups := [] }, []) entities.enum
            .ok (st.1, st.2 ++ [ConvEvent.progress entities.length
                  entities.length "Conversion complete"])
      else .error .openError
  else .error .dependencyMissing

/-- The sequence of progress-callback invocations recorded in an event
list. -/
def progressCalls (evs : List ConvEvent) : List (Nat × Nat × String) :=
  evs.filterMap (fun e =>
    match e with
    | .progress a b c => some (a, b, c)
    | _ => none)

/-- Whether an event is a per-entity outcome (serialized or warned) rather
than a progress invocation. -/
def isOutcome : ConvEvent → Bool
  | .progress _ _ _ => false
  | .converted _ => true
  | .warned _ => true

/-- The two log entries one loop iteration produces: the progress invocation
followed by the entity's outcome. -/
def pairEvents (total : Nat) (p : (Nat × EntitySummary) × ConvEvent) :
    List ConvEvent :=
  [ConvEvent.progress p.1.1 total ("Converting " ++ p.1.2.label), p.2]

/-- The per-entity outcomes of the loop, threading the evolving container
state: an entity whose `try` body succeeds is serialized, one whose body
raises is warned and leaves the state unchanged. -/
def convertOutcomes (m : MCDFile) : H5File → List (Nat × EntitySummary) → List ConvEvent
  | _, [] => []
  | h5, p :: t =>
    match convert_entity m h5 p.2 with
    | .ok h5' => ConvEvent.converted (sanitizeLabel p.2.label) :: convertOutcomes m h5' t
    | .error _ => ConvEvent.warned (sanitizeLabel p.2.label) :: convertOutcomes m h5 t

/-- The event log of a conversion, empty when the conversion failed to
start. -/
def convertLog (env : Env) (mcd_filename : String) : List ConvEvent :=
  match convert env mcd_filename with
  | .ok st => st.2
  | .error _ => []

/-- The record literal of `get_segment_data`'s success branch, for segment
`s` of entity `e`. -/
def mkSegRecord (e : NSEntity) (s : SegRaw) : SegmentRecord :=
  { data := s.data
    timestamp := s.timestamp
    sample_count := s.sample_count
    unit_id := s.unit_id
    source_count := e.source_count
    sample_rate := e.sample_rate
    label := e.label }

/-- The destination container right after `convert` wrote the `info()`
attributes and created the four empty top-level groups. -/
def initH5 (fi : FileInfo) : H5File :=
  { attrs := infoAttrs fi
    event_groups := []
    analog_groups := []
    segment_groups := []
    neural_groups := [] }

/-! ### Concrete fixtures used by witnesses and counterexamples -/

/-- A blank native entity; fixtures below override the relevant fields. -/
def baseEntity : NSEntity :=
  { label := ""
    entity_type := 0
    analog_samples := []
    analog_times := []
    events := []
    segs := []
    neural_times := []
    event_type := 0
    sample_rate := 0
    units := ""
    min_value := 0
    max_value := 0
    resolution := 0
    location_x := 0
    location_y := 0
    location_z := 0
    source_count := 0
    max_sample_count := 0
    metadata_raw := [] }

/-- An event entity with two numeric-valued events. -/
def evEnt : NSEntity :=
  { baseEntity with
      label := "Trig"
      entity_type := 1
      events := [(1, PyValue.num 7), (2, PyValue.num 9)] }

/-- An analog entity with three samples. -/
def anEnt : NSEntity :=
  { baseEntity with
      label := "Ch1"
      entity_type := 2
      analog_samples := [5, 6, 7]
      analog_times := [0, 1, 2]
      sample_rate := 1000
      units := "V" }

/-- A segment entity with five identical segments (`item_count == 5`). -/
def segEnt : NSEntity :=
  { baseEntity with
      label := "Spk"
      entity_type := 3
      segs := List.replicate 5 { data := [[1, 2]], timestamp := 3,
                                 sample_count := 2, unit_id := 0 }
      source_count := 1 }

/-- A neural entity with two spike timestamps. -/
def neuEnt : NSEntity :=
  { baseEntity with
      label := "N1"
      entity_type := 4
      neural_times := [4, 5] }

/-- An event entity whose value list is heterogeneous, so the `np.array`
conversion fails. -/
def hetEnt : NSEntity :=
  { baseEntity with
      label := "Het"
      entity_type := 1
      events := [(1, PyValue.num 7), (2, PyValue.other "x")] }

/-- A native file holding one entity of each flavour. -/
def file0 : NSFile :=
  { file_type := "mcd"
    time_stamp_resolution := 1
    time_span := 10
    app_name := "MC"
    comment := ""
    metadata_raw := []
    entities := [evEnt, anEnt, segEnt, neuEnt, hetEnt] }

/-- The open wrapper handle over `file0`. -/
def m0 : MCDFile :=
  { filename := "d.mcd", library_path := "", file := some file0, lib := none }

/-- An environment where every path exists and the native binding opens
`file0`. -/
def env1 : Env :=
  { path_exists := fun _ => true
    find_library := fun _ => ""
    load_library := fun _ => none
    native_open := fun _ => .ok file0
    h5py_available := true
    h5_writable := true }

/-- A native file with a single event entity, for small whole-conversion
evaluations. -/
def file1 : NSFile :=
  { file0 with entities := [evEnt] }

/-- An environment whose native binding opens `file1`. -/
def env2 : Env :=
  { env1 with native_open := fun _ => .ok file1 }

/-- A native file with a duplicate label: the second event entity collides
with the first in the destination container, so its conversion raises. -/
def file2 : NSFile :=
  { file0 with entities := [evEnt, evEnt, anEnt] }

/-- An environment whose native binding opens `file2`. -/
def env3 : Env :=
  { env1 with native_open := fun _ => .ok file2 }

/-- The wrapper handle produced by opening `file2` through `env3`. -/
def m3 : MCDFile :=
  { filename := "d.mcd", library_path := "", file := some file2, lib := none }

/-- An environment where no path exists, and whose native opener would
nevertheless succeed if it were (wrongly) consulted. -/
def env4 : Env :=
  { env1 with path_exists := fun _ => false }

/-- An environment where no path exists and the native opener fails; paired
with `env4` to show the missing-path result ignores the native layer. -/
def env5 : Env :=
  { env4 with native_open := fun _ => .error "native failure" }

/-! ### Helper lemmas -/

theorem exceptMap_ok {β : Type} (F : Nat → Except Err β) (g : Nat → β) :
    ∀ l : List Nat, (∀ i ∈ l, F i = .ok (g i)) →
    exceptMap F l = .ok (l.map g) := by
  intro l h
  induction l with
  | nil => rfl
  | cons a t ih =>
    have ha := h a (List.mem_cons_self a t)
    have ht := ih (fun i hi => h i (List.mem_cons_of_mem a hi))
    simp [exceptMap, ha, ht]

theorem list_entities_open {m : MCDFile} {f : NSFile} (hf : m.file = some f) :
    m.list_entities = .ok (summariesOf f) := by
  simp [MCDFile.list_entities, hf]

theorem summaries_map_id (f : NSFile) :
    ((summariesOf f).map fun s => s.id) = List.range f.entities.length := by
  rw [summariesOf, List.map_map]
  have h : ((fun s : EntitySummary => s.id) ∘ fun p : Nat × NSEntity =>
      mkSummary p.1 p.2) = Prod.fst := by
    funext p
    rfl
  rw [h, List.enum_map_fst]

theorem summaries_nodup (f : NSFile) : (summariesOf f).Nodup := by
  have h : ((summariesOf f).map fun s => s.id).Nodup := by
    rw [summaries_map_id]
    exact List.nodup_range _
  exact h.of_map _

theorem summariesOf_length (f : NSFile) :
    (summariesOf f).length = f.entities.length := by
  simp [summariesOf]

theorem type_map_typeName {t : Int} (h0 : 0 ≤ t) (h4 : t ≤ 4) :
    type_map.lookup (pyLower (typeName t)) = some t := by
  have h : t = 0 ∨ t = 1 ∨ t = 2 ∨ t = 3 ∨ t = 4 := by omega
  rcases h with rfl | rfl | rfl | rfl | rfl <;> decide

example : pyLower "Analog" = "analog" := by decide

example : sanitizeLabel "a/b" = "a_b" := by decide

theorem exceptMap_comp {β : Type} (F : Nat → Except Err β) (h : Nat → Nat) :
    ∀ l : List Nat, exceptMap F (l.map h) = exceptMap (fun i => F (h i)) l := by
  intro l
  induction l with
  | nil => rfl
  | cons a t ih => simp only [List.map_cons, exceptMap, ih]

theorem exceptMap_range_get {β : Type} (l : List β) (F : Nat → Except Err β)
    (h : ∀ i (hi : i < l.length), F i = .ok (l.get ⟨i, hi⟩)) :
    exceptMap F (List.range l.length) = .ok l := by
  induction l generalizing F with
  | nil => rfl
  | cons b t ih =>
    have h0 : F 0 = .ok b := h 0 (Nat.succ_pos _)
    have ht : ∀ i (hi : i < t.length), F (Nat.succ i) = .ok (t.get ⟨i, hi⟩) :=
      fun i hi => h (i + 1) (Nat.succ_lt_succ hi)
    have hrec := ih (fun i => F (Nat.succ i)) ht
    rw [List.length_cons, List.range_succ_eq_map]
    simp only [exceptMap, h0, exceptMap_comp, hrec]

theorem toNumArray_some {l : List PyValue} {a : List Int}
    (h : toNumArray l = some a) : a.map PyValue.num = l := by
  induction l generalizing a with
  | nil =>
    simp only [toNumArray, Option.some.injEq] at h
    subst h
    rfl
  | cons v t ih =>
    cases v with
    | num n =>
      simp only [toNumArray, Option.map_eq_some'] at h
      obtain ⟨b, hb, rfl⟩ := h
      simp [ih hb]
    | other s => simp [toNumArray] at h

theorem open_file_model_some {env : Env} {filename lp : String}
    {fl : Option NSFile × Option Unit}
    (h : open_file_model env filename lp = .ok fl) : ∃ f, fl.1 = some f := by
  unfold open_file_model at h
  by_cases hc : lp ≠ "" ∧ env.path_exists lp = true
  · rw [if_pos hc] at h
    cases hl : env.load_library lp <;> rw [hl] at h <;>
      cases ho : env.native_open filename <;> rw [ho] at h <;>
      first
        | exact Except.noConfusion h
        | exact ⟨_, by rw [← Except.ok.inj h]⟩
  · rw [if_neg hc] at h
    cases ho : env.native_open filename <;> rw [ho] at h
    · exact Except.noConfusion h
    · exact ⟨_, by rw [← Except.ok.inj h]⟩

theorem mcd_init_file {env : Env} {p : String} {lp : Option String}
    {m : MCDFile} (hm : mcd_init env p lp = .ok m) : ∃ f, m.file = some f := by
  unfold mcd_init at hm
  by_cases hc : env.path_exists p = true
  · rw [if_pos hc] at hm
    cases ho : open_file_model env p (env.find_library lp) <;> rw [ho] at hm
    · exact Except.noConfusion hm
    · obtain ⟨f, hf⟩ := open_file_model_some ho
      have hv := Except.ok.inj hm
      subst hv
      exact ⟨f, hf⟩
  · rw [if_neg hc] at hm
    exact Except.noConfusion hm

theorem info_open {m : MCDFile} {f : NSFile} (hf : m.file = some f) :
    ∃ fi, m.info = .ok fi := by
  simp only [MCDFile.info, hf]
  exact ⟨_, rfl⟩

theorem convertOutcomes_length (m : MCDFile) :
    ∀ (l : List (Nat × EntitySummary)) (h5 : H5File),
    (convertOutcomes m h5 l).length = l.length := by
  intro l
  induction l with
  | nil => intro h5; rfl
  | cons q t ih =>
    intro h5
    cases hce : convert_entity m h5 q.2 with
    | ok h5' => simp [convertOutcomes, hce, ih]
    | error err => simp [convertOutcomes, hce, ih]

theorem convertOutcomes_isOutcome (m : MCDFile) :
    ∀ (l : List (Nat × EntitySummary)) (h5 : H5File) (ev : ConvEvent),
    ev ∈ convertOutcomes m h5 l → isOutcome ev = true := by
  intro l
  induction l with
  | nil =>
    intro h5 ev h
    simp [convertOutcomes] at h
  | cons q t ih =>
    intro h5 ev h
    cases hce : convert_entity m h5 q.2 with
    | ok h5' =>
      simp only [convertOutcomes, hce] at h
      rcases List.mem_cons.1 h with rfl | hm
      · rfl
      · exact ih h5' ev hm
    | error err =>
      simp only [convertOutcomes, hce] at h
      rcases List.mem_cons.1 h with rfl | hm
      · rfl
      · exact ih h5 ev hm

theorem convertOutcomes_get (m : MCDFile) :
    ∀ (l : List (Nat × EntitySummary)) (h5 : H5File) (j : Nat)
      (hj : j < l.length),
    (convertOutcomes m h5 l).get? j =
        some (ConvEvent.converted (sanitizeLabel (l.get ⟨j, hj⟩).2.label)) ∨
    (convertOutcomes m h5 l).get? j =
        some (ConvEvent.warned (sanitizeLabel (l.get ⟨j, hj⟩).2.label)) := by
  intro l
  induction l with
  | nil =>
    intro h5 j hj
    exact absurd hj (by simp)
  | cons q t ih =>
    intro h5 j hj
    cases hce : convert_entity m h5 q.2 with
    | ok h5' =>
      cases j with
      | zero =>
        left
        simp [convertOutcomes, hce]
      | succ j' =>
        have hj' : j' < t.length := Nat.lt_of_succ_lt_succ hj
        have hrec := ih h5' j' hj'
        simpa [convertOutcomes, hce] using hrec
    | error err =>
      cases j with
      | zero =>
        right
        simp [convertOutcomes, hce]
      | succ j' =>
        have hj' : j' < t.length := Nat.lt_of_succ_lt_succ hj
        have hrec := ih h5 j' hj'
        simpa [convertOutcomes, hce] using hrec

theorem convertLoop_log (m : MCDFile) (total : Nat) :
    ∀ (l : List (Nat × EntitySummary)) (h5 : H5File) (evs : List ConvEvent),
    (convertLoop m total (h5, evs) l).2 =
      evs ++ (l.zip (convertOutcomes m h5 l)).flatMap (pairEvents total) := by
  intro l
  induction l with
  | nil =>
    intro h5 evs
    simp [convertLoop, convertOutcomes]
  | cons q t ih =>
    intro h5 evs
    have hstep : convertLoop m total (h5, evs) (q :: t) =
        convertLoop m total (convertStep m total (h5, evs) q) t := rfl
    rw [hstep]
    cases hce : convert_entity m h5 q.2 with
    | ok h5' =>
      have hs : convertStep m total (h5, evs) q =
          (h5', (evs ++ [ConvEvent.progress q.1 total
              ("Converting " ++ q.2.label)]) ++
            [ConvEvent.converted (sanitizeLabel q.2.label)]) := by
        simp [convertStep, hce]
      rw [hs, ih]
      simp [convertOutcomes, hce, pairEvents]
    | error err =>
      have hs : convertStep m total (h5, evs) q =
          (h5, (evs ++ [ConvEvent.progress q.1 total
              ("Converting " ++ q.2.label)]) ++
            [ConvEvent.warned (sanitizeLabel q.2.label)]) := by
        simp [convertStep, hce]
      rw [hs, ih]
      simp [convertOutcomes, hce, pairEvents]

theorem filter_isOutcome_bind (total : Nat) :
    ∀ (l : List (Nat × EntitySummary)) (out : List ConvEvent),
    out.length = l.length → (∀ ev ∈ out, isOutcome ev = true) →
    ((l.zip out).flatMap (pairEvents total)).filter isOutcome = out := by
  intro l
  induction l with
  | nil =>
    intro out hlen _
    have h0 : out = [] := List.length_eq_zero.1 (by simpa using hlen)
    subst h0
    rfl
  | cons q t ih =>
    intro out hlen hout
    cases out with
    | nil => simp at hlen
    | cons o os =>
      have hlen' : os.length = t.length := by simpa using hlen
      have ho := hout o (List.mem_cons_self o os)
      have hos : ∀ ev ∈ os, isOutcome ev = true :=
        fun ev h => hout ev (List.mem_cons_of_mem o h)
      have h1 : (pairEvents total (q, o)).filter isOutcome = [o] := by
        cases o <;> simp [pairEvents, isOutcome, List.filter_cons] at ho ⊢
      calc ((( q :: t).zip (o :: os)).flatMap (pairEvents total)).filter isOutcome
          = (pairEvents total (q, o)).filter isOutcome ++
            ((t.zip os).flatMap (pairEvents total)).filter isOutcome := by
            simp [List.filter_append]
        _ = o :: os := by rw [h1, ih os hlen' hos]; rfl

theorem progressCalls_append (a b : List ConvEvent) :
    progressCalls (a ++ b) = progressCalls a ++ progressCalls b := by
  simp [progressCalls]

theorem progressCalls_bind (total : Nat) :
    ∀ (l : List (Nat × EntitySummary)) (out : List ConvEvent),
    out.length = l.length → (∀ ev ∈ out, isOutcome ev = true) →
    progressCalls ((l.zip out).flatMap (pairEvents total)) =
      l.map (fun q => (q.1, total, "Converting " ++ q.2.label)) := by
  intro l
  induction l with
  | nil =>
    intro out hlen _
    have h0 : out = [] := List.length_eq_zero.1 (by simpa using hlen)
    subst h0
    rfl
  | cons q t ih =>
    intro out hlen hout
    cases out with
    | nil => simp at hlen
    | cons o os =>
      have hlen' : os.length = t.length := by simpa using hlen
      have ho := hout o (List.mem_cons_self o os)
      have hos : ∀ ev ∈ os, isOutcome ev = true :=
        fun ev h => hout ev (List.mem_cons_of_mem o h)
      have h1 : progressCalls (pairEvents total (q, o)) =
          [(q.1, total, "Converting " ++ q.2.label)] := by
        cases o <;> simp [pairEvents, progressCalls, isOutcome] at ho ⊢
      calc progressCalls (((q :: t).zip (o :: os)).flatMap (pairEvents total))
          = progressCalls (pairEvents total (q, o)) ++
            progressCalls ((t.zip os).flatMap (pairEvents total)) := by
            simp [progressCalls_append]
        _ = (q :: t).map (fun r => (r.1, total, "Converting " ++ r.2.label)) := by
            rw [h1, ih os hlen' hos]
            rfl

theorem convert_ok (env : Env) (p : String) (m : MCDFile) (f : NSFile)
    (fi : FileInfo) (hm : mcd_init env p none = .ok m) (hf : m.file = some f)
    (hav : env.h5py_available = true) (hw : env.h5_writable = true)
    (hfi : m.info = .ok fi) :
    convert env p = .ok
      ((convertLoop m (summariesOf f).length (initH5 fi, [])
          (summariesOf f).enum).1,
       (convertLoop m (summariesOf f).length (initH5 fi, [])
          (summariesOf f).enum).2 ++
         [ConvEvent.progress (summariesOf f).length (summariesOf f).length
           "Conversion complete"]) := by
  simp [convert, hav, hm, hw, hfi, list_entities_open hf, initH5]

/-! ### Claim theorems -/

/-- C2: on every open file, each typed accessor (`get_analog_data`,
`get_event_data`, `get_segment_data`, `get_all_segments`,
`get_neural_data`) applied to an entity whose declared type does not match
the accessor's type fails with TypeMismatch.  The statement holds for every
native file `f`, in particular for every content of the entity's data
lists, so no data read influences the outcome: the type check precedes the
native `get_data` call. -/
theorem C2_mismatched_accessor_fails (m : MCDFile) (f : NSFile) (e : NSEntity)
    (entity_id : Nat) (s c : Int) (idx : Nat)
    (hf : m.file = some f) (he : f.get_entity entity_id = .ok e) :
    (e.entity_type ≠ ENTITY_ANALOG →
      m.get_analog_data entity_id s c = .error .typeMismatch) ∧
    (e.entity_type ≠ ENTITY_EVENT →
      m.get_event_data entity_id = .error .typeMismatch) ∧
    (e.entity_type ≠ ENTITY_SEGMENT →
      m.get_segment_data entity_id idx = .error .typeMismatch) ∧
    (e.entity_type ≠ ENTITY_SEGMENT →
      m.get_all_segments entity_id = .error .typeMismatch) ∧
    (e.entity_type ≠ ENTITY_NEURAL →
      m.get_neural_data entity_id s c = .error .typeMismatch) := by
  refine ⟨fun ht => ?_, fun ht => ?_, fun ht => ?_, fun ht => ?_, fun ht => ?_⟩ <;>
    simp [MCDFile.get_analog_data, MCDFile.get_event_data,
      MCDFile.get_segment_data, MCDFile.get_all_segments,
      MCDFile.get_neural_data, hf, he, ht]

/-- Witness for C2 on the concrete handle `m0`: entity 0 is an event, so the
analog, segment, all-segments and neural accessors fail with TypeMismatch;
entity 1 is analog, so the event accessor fails with TypeMismatch. -/
theorem C2_witness :
    m0.get_analog_data 0 0 (-1) = .error .typeMismatch ∧
    m0.get_segment_data 0 0 = .error .typeMismatch ∧
    m0.get_all_segments 0 = .error .typeMismatch ∧
    m0.get_neural_data 0 0 (-1) = .error .typeMismatch ∧
    m0.get_event_data 1 = .error .typeMismatch :=
  ⟨(C2_mismatched_accessor_fails m0 file0 evEnt 0 0 (-1) 0 rfl rfl).1 (by decide),
   (C2_mismatched_accessor_fails m0 file0 evEnt 0 0 (-1) 0 rfl rfl).2.2.1 (by decide),
   (C2_mismatched_accessor_fails m0 file0 evEnt 0 0 (-1) 0 rfl rfl).2.2.2.1 (by decide),
   (C2_mismatched_accessor_fails m0 file0 evEnt 0 0 (-1) 0 rfl rfl).2.2.2.2 (by decide),
   (C2_mismatched_accessor_fails m0 file0 anEnt 1 0 (-1) 0 rfl rfl).2.1 (by decide)⟩

/-- C3: on every open file, `get_segment_data` on a segment entity with an
index at or past `item_count` fails with OutOfRange (the bound is enforced
by the native binding's `get_data`, which the wrapper calls after its type
check). -/
theorem C3_segment_index_out_of_range (m : MCDFile) (f : NSFile) (e : NSEntity)
    (entity_id idx : Nat) (hf : m.file = some f)
    (he : f.get_entity entity_id = .ok e)
    (ht : e.entity_type = ENTITY_SEGMENT) (hi : e.item_count ≤ idx) :
    m.get_segment_data entity_id idx = .error .outOfRange := by
  have hseg : e.segs.length ≤ idx := by
    simpa [NSEntity.item_count, ht, ENTITY_EVENT, ENTITY_ANALOG,
      ENTITY_SEGMENT, ENTITY_NEURAL] using hi
  have hget : e.segs[idx]? = none := List.getElem?_eq_none hseg
  simp [MCDFile.get_segment_data, hf, he, ht, NSEntity.segGetData, hget]

/-- Witness for C3, the spec scenario: entity 2 of `file0` is a segment
entity with `item_count == 5`, and `get_segment_data(2, 10)` fails with
OutOfRange. -/
theorem C3_witness :
    segEnt.item_count = 5 ∧
    m0.get_segment_data 2 10 = .error .outOfRange :=
  ⟨by decide,
   C3_segment_index_out_of_range m0 file0 segEnt 2 10 rfl rfl (by decide)
     (by decide)⟩

/-- C5: constructing the accessor on a path the filesystem test rejects
fails with NotFound, and the result is the same for every library search,
library loader and native opener — i.e. the failure happens before any
native call is attempted (the `os.path.exists` check is the first statement
after storing the filename). -/
theorem C5_missing_path_not_found (env env' : Env) (filename : String)
    (library_path : Option String)
    (h : env.path_exists filename = false) :
    mcd_init env filename library_path = .error .notFound ∧
    (env'.path_exists = env.path_exists →
      mcd_init env' filename library_path =
        mcd_init env filename library_path) := by
  constructor
  · simp [mcd_init, h]
  · intro h2
    simp [mcd_init, h, h2]

/-- Witness for C5: under `env4` no path exists; the open fails with
NotFound, and `env5` (same filesystem, a failing native opener instead of a
succeeding one) gives the identical result. -/
theorem C5_witness :
    mcd_init env4 "missing.mcd" none = .error .notFound ∧
    mcd_init env5 "missing.mcd" none = mcd_init env4 "missing.mcd" none :=
  ⟨(C5_missing_path_not_found env4 env5 "missing.mcd" none rfl).1,
   (C5_missing_path_not_found env4 env5 "missing.mcd" none rfl).2 rfl⟩

/-- C6: `close()` is idempotent — closing any handle again leaves the same
closed handle (and `close` is a total operation, so it succeeds in any
state) — and after `close()` each of the read operations `info`,
`list_entities`, `get_entity_info`, `get_analog_data`, `get_event_data`,
`get_segment_data`, `get_all_segments` and `get_neural_data` fails with
NotOpen. -/
theorem C6_close_idempotent_reads_fail (m : MCDFile) (entity_id idx : Nat)
    (s c : Int) :
    m.close.close = m.close ∧
    m.close.file = none ∧
    m.close.info = .error .notOpen ∧
    m.close.list_entities = .error .notOpen ∧
    m.close.get_entity_info entity_id = .error .notOpen ∧
    m.close.get_analog_data entity_id s c = .error .notOpen ∧
    m.close.get_event_data entity_id = .error .notOpen ∧
    m.close.get_segment_data entity_id idx = .error .notOpen ∧
    m.close.get_all_segments entity_id = .error .notOpen ∧
    m.close.get_neural_data entity_id s c = .error .notOpen :=
  ⟨rfl, rfl, rfl, rfl, rfl, rfl, rfl, rfl, rfl, rfl⟩

/-- C9: a numeric type argument to `get_entities_by_type` is never
validated: the call never raises the invalid-type ValueError in any state,
and on an open file it returns exactly the entities whose type equals the
given integer (the empty list when none match), for every integer including
those outside the known codes 0..4. -/
theorem C9_numeric_type_unvalidated (m : MCDFile) (f : NSFile) (t : Int)
    (hf : m.file = some f) :
    (∀ m' : MCDFile,
      m'.get_entities_by_type (.inr t) ≠ .error .invalidArgument) ∧
    m.get_entities_by_type (.inr t) =
      .ok ((summariesOf f).filter fun e => e.type == t) := by
  constructor
  · intro m'
    cases hm' : m'.file with
    | none => simp [MCDFile.get_entities_by_type, MCDFile.list_entities, hm']
    | some f' => simp [MCDFile.get_entities_by_type, MCDFile.list_entities, hm']
  · simp [MCDFile.get_entities_by_type, MCDFile.list_entities, hf]

/-- Witness for C9: on `m0`, the out-of-range numeric code 99 raises
nothing and selects the empty list. -/
theorem C9_witness :
    (∀ m' : MCDFile,
      m'.get_entities_by_type (.inr 99) ≠ .error .invalidArgument) ∧
    m0.get_entities_by_type (.inr 99) =
      .ok ((summariesOf file0).filter fun e => e.type == 99) :=
  C9_numeric_type_unvalidated m0 file0 99 rfl

/-- C1: on every open file whose entity type codes lie in the binding's
documented range 0..4 (the five types of the spec's data model), every
entity `e` of `list_entities()` appears exactly once in
`get_entities_by_type(e.type_name)`, that list is exactly the id-order
preserving filter of `list_entities()` on the resolved type, and every
member has the requested type. -/
theorem C1_by_type_name_roundtrip (m : MCDFile) (f : NSFile)
    (hf : m.file = some f)
    (htypes : ∀ a ∈ f.entities, 0 ≤ a.entity_type ∧ a.entity_type ≤ 4)
    (es : List EntitySummary) (hes : m.list_entities = .ok es)
    (e : EntitySummary) (he : e ∈ es) :
    ∃ res, m.get_entities_by_type (.inl e.type_name) = .ok res ∧
      res = es.filter (fun x => x.type == e.type) ∧
      res.count e = 1 ∧
      ∀ x ∈ res, x.type = e.type := by
  rw [list_entities_open hf] at hes
  have hE := Except.ok.inj hes
  subst hE
  have he' := he
  simp only [summariesOf, List.mem_map] at he'
  obtain ⟨p, hp, hpe⟩ := he'
  subst hpe
  have hmem : p.2 ∈ f.entities :=
    List.getElem?_mem (List.mem_enum_iff_getElem?.1 hp)
  obtain ⟨hb0, hb4⟩ := htypes p.2 hmem
  have hlookup := type_map_typeName hb0 hb4
  have hname : (mkSummary p.1 p.2).type_name = typeName p.2.entity_type := rfl
  have htype : (mkSummary p.1 p.2).type = p.2.entity_type := rfl
  refine ⟨(summariesOf f).filter
      (fun x => x.type == (mkSummary p.1 p.2).type), ?_, rfl, ?_, ?_⟩
  · simp only [MCDFile.get_entities_by_type, hname, htype, hlookup,
      list_entities_open hf]
  · have hpass : ((mkSummary p.1 p.2).type == (mkSummary p.1 p.2).type) = true := by
      simp
    rw [List.count_filter (a := mkSummary p.1 p.2)
      (p := fun x => x.type == (mkSummary p.1 p.2).type) hpass]
    exact List.count_eq_one_of_mem (summaries_nodup f) he
  · intro x hx
    have hx2 := (List.mem_filter.1 hx).2
    exact beq_iff_eq.1 hx2

/-- Witness for C1 on `m0`: entity 1 of `file0` is the analog entity; its
type name selects exactly the analog summaries. -/
theorem C1_witness :
    ∃ res, m0.get_entities_by_type (.inl (mkSummary 1 anEnt).type_name) =
        .ok res ∧
      res = (summariesOf file0).filter
        (fun x => x.type == (mkSummary 1 anEnt).type) ∧
      res.count (mkSummary 1 anEnt) = 1 ∧
      ∀ x ∈ res, x.type = (mkSummary 1 anEnt).type :=
  C1_by_type_name_roundtrip m0 file0 rfl (by decide) (summariesOf file0) rfl
    (mkSummary 1 anEnt) (by decide)

/-- C4: on every open file, `get_all_segments` on a segment entity succeeds
and returns exactly the sequence of `get_segment_data(id, i)` results for
`i` in `0..item_count-1` in increasing order, with length exactly
`item_count`. -/
theorem C4_get_all_segments_complete (m : MCDFile) (f : NSFile) (e : NSEntity)
    (entity_id : Nat) (hf : m.file = some f)
    (he : f.get_entity entity_id = .ok e)
    (ht : e.entity_type = ENTITY_SEGMENT) :
    ∃ l, m.get_all_segments entity_id = .ok l ∧
      l.length = e.item_count ∧
      ∀ i (hi : i < l.length),
        m.get_segment_data entity_id i = .ok (l.get ⟨i, hi⟩) := by
  have hcount : e.item_count = e.segs.length := by
    simp [NSEntity.item_count, ht, ENTITY_EVENT, ENTITY_ANALOG,
      ENTITY_SEGMENT, ENTITY_NEURAL]
  have hlen : (e.segs.map (mkSegRecord e)).length = e.segs.length := by simp
  have hstep : ∀ i (hi : i < (e.segs.map (mkSegRecord e)).length),
      m.get_segment_data entity_id i =
        .ok ((e.segs.map (mkSegRecord e)).get ⟨i, hi⟩) := by
    intro i hi
    have hi' : i < e.segs.length := by simpa using hi
    have hget : e.segs[i]? = some e.segs[i] := List.getElem?_eq_getElem hi'
    have hgoal : (e.segs.map (mkSegRecord e)).get ⟨i, hi⟩ =
        mkSegRecord e e.segs[i] := by
      simp [List.get_eq_getElem]
    rw [hgoal]
    simp [MCDFile.get_segment_data, hf, he, ht, NSEntity.segGetData, hget,
      mkSegRecord]
  refine ⟨e.segs.map (mkSegRecord e), ?_, by rw [hcount]; exact hlen, hstep⟩
  have hrange := exceptMap_range_get (e.segs.map (mkSegRecord e))
    (fun i => m.get_segment_data entity_id i) hstep
  simp only [MCDFile.get_all_segments, hf, he, ht]
  rw [if_neg (by simp)]
  rw [hcount, ← hlen]
  exact hrange

/-- Witness for C4: entity 2 of `file0` is the segment entity with five
segments; `get_all_segments` returns its five per-index reads in order. -/
theorem C4_witness :
    ∃ l, m0.get_all_segments 2 = .ok l ∧
      l.length = segEnt.item_count ∧
      ∀ i (hi : i < l.length), m0.get_segment_data 2 i = .ok (l.get ⟨i, hi⟩) :=
  C4_get_all_segments_complete m0 file0 segEnt 2 rfl rfl (by decide)

/-- C10: on every open file, `get_event_data` on an event entity succeeds
with a timestamps sequence of length exactly `item_count` and one value per
item in item order; when the collected values cannot be converted to a
homogeneous numeric array the failure is swallowed and the original
ordered value list is returned unchanged. -/
theorem C10_get_event_data_complete (m : MCDFile) (f : NSFile) (e : NSEntity)
    (entity_id : Nat) (hf : m.file = some f)
    (he : f.get_entity entity_id = .ok e)
    (ht : e.entity_type = ENTITY_EVENT) :
    ∃ r, m.get_event_data entity_id = .ok r ∧
      r.timestamps.length = e.item_count ∧
      r.timestamps = e.events.map Prod.fst ∧
      r.values.asList = e.events.map Prod.snd ∧
      (toNumArray (e.events.map Prod.snd) = none →
        r.values = .heterogeneous (e.events.map Prod.snd)) := by
  have hcount : e.item_count = e.events.length := by
    simp [NSEntity.item_count, ht, ENTITY_EVENT]
  have hstep : ∀ i (hi : i < e.events.length),
      e.eventGetData i = .ok (e.events.get ⟨i, hi⟩) := by
    intro i hi
    simp [NSEntity.eventGetData, List.getElem?_eq_getElem hi,
      List.get_eq_getElem]
  have hmap := exceptMap_range_get e.events (fun i => e.eventGetData i) hstep
  refine ⟨{ timestamps := e.events.map Prod.fst
            values :=
              match toNumArray (e.events.map Prod.snd) with
              | some a => .homogeneous a
              | none => .heterogeneous (e.events.map Prod.snd)
            event_type := e.event_type
            label := e.label }, ?_, ?_, rfl, ?_, ?_⟩
  · simp only [MCDFile.get_event_data, hf, he, ht]
    rw [if_neg (by simp)]
    rw [hcount, hmap]
  · simp [hcount]
  · cases hna : toNumArray (e.events.map Prod.snd) with
    | some a =>
      simp only [hna, EventValues.asList]
      exact toNumArray_some hna
    | none => simp only [hna, EventValues.asList]
  · intro hna
    simp only [hna]

/-- C7: once the source open, the h5py import and the destination create
have succeeded, `convert` always returns successfully — a raising entity
never aborts the loop — and its log carries exactly one per-entity outcome
for every entity, in id order: `converted` when the entity's `try` body
succeeded against the container state of that moment, `warned` when it
raised (the caught exception is downgraded to a printed warning and the
loop continues with the next entity). -/
theorem C7_entity_failures_caught (env : Env) (p : String) (m : MCDFile)
    (f : NSFile) (es : List EntitySummary)
    (hm : mcd_init env p none = .ok m) (hf : m.file = some f)
    (hes : m.list_entities = .ok es)
    (hav : env.h5py_available = true) (hw : env.h5_writable = true) :
    ∃ st fi, m.info = .ok fi ∧ convert env p = .ok st ∧
      st.2.filter isOutcome = convertOutcomes m (initH5 fi) es.enum ∧
      (st.2.filter isOutcome).length = es.length ∧
      ∀ j (hj : j < es.length),
        (st.2.filter isOutcome).get? j =
          some (ConvEvent.converted (sanitizeLabel (es.get ⟨j, hj⟩).label)) ∨
        (st.2.filter isOutcome).get? j =
          some (ConvEvent.warned (sanitizeLabel (es.get ⟨j, hj⟩).label)) := by
  rw [list_entities_open hf] at hes
  have hE := Except.ok.inj hes
  subst hE
  obtain ⟨fi, hfi⟩ := info_open hf
  have hout : ∀ ev ∈ convertOutcomes m (initH5 fi) (summariesOf f).enum,
      isOutcome ev = true :=
    fun ev h => convertOutcomes_isOutcome m _ _ ev h
  have hlog := convertLoop_log m (summariesOf f).length (summariesOf f).enum
    (initH5 fi) []
  have hfilter :
      ((convertLoop m (summariesOf f).length (initH5 fi, [])
          (summariesOf f).enum).2 ++
        [ConvEvent.progress (summariesOf f).length (summariesOf f).length
          "Conversion complete"]).filter isOutcome =
      convertOutcomes m (initH5 fi) (summariesOf f).enum := by
    rw [hlog, List.filter_append, List.filter_append]
    rw [filter_isOutcome_bind _ _ _
      (convertOutcomes_length m (summariesOf f).enum (initH5 fi)) hout]
    simp [isOutcome]
  refine ⟨_, fi, hfi, convert_ok env p m f fi hm hf hav hw hfi, hfilter, ?_, ?_⟩
  · rw [hfilter, convertOutcomes_length]
    simp
  · intro j hj
    rw [hfilter]
    have hj2 : j < (summariesOf f).enum.length := by
      simpa using hj
    have hget : ((summariesOf f).enum.get ⟨j, hj2⟩).2 =
        (summariesOf f).get ⟨j, hj⟩ := by
      simp [List.get_eq_getElem, List.getElem_enum]
    have hrec := convertOutcomes_get m (summariesOf f).enum (initH5 fi) j hj2
    rw [hget] at hrec
    exact hrec

/-- Witness for C7: `file2` has two identically labelled event entities
followed by an analog entity; the second entity's conversion raises (its
group name already exists), is downgraded to a warning, and the third
entity is still converted. -/
theorem C7_witness :
    (∃ st fi, m3.info = .ok fi ∧ convert env3 "d.mcd" = .ok st ∧
      st.2.filter isOutcome =
        convertOutcomes m3 (initH5 fi) (summariesOf file2).enum ∧
      (st.2.filter isOutcome).length = (summariesOf file2).length ∧
      ∀ j (hj : j < (summariesOf file2).length),
        (st.2.filter isOutcome).get? j =
          some (ConvEvent.converted
            (sanitizeLabel ((summariesOf file2).get ⟨j, hj⟩).label)) ∨
        (st.2.filter isOutcome).get? j =
          some (ConvEvent.warned
            (sanitizeLabel ((summariesOf file2).get ⟨j, hj⟩).label))) ∧
    (convertLog env3 "d.mcd").filter isOutcome =
      [ConvEvent.converted "Trig", ConvEvent.warned "Trig",
       ConvEvent.converted "Ch1"] :=
  ⟨C7_entity_failures_caught env3 "d.mcd" m3 file2 (summariesOf file2)
      rfl rfl rfl rfl rfl,
   by decide⟩

/-- C8 (amended): with a callback supplied, `convert` over `N` entities
invokes it exactly `N + 1` times — once per entity, before that entity is
converted, with arguments `(i, N, "Converting " ++ label)`, and once at
completion with `(N, N, "Conversion complete")` (the source's completion
message; the claim's literal `"done"` does not occur). -/
theorem C8_progress_invocations (env : Env) (p : String) (m : MCDFile)
    (f : NSFile) (es : List EntitySummary)
    (hm : mcd_init env p none = .ok m) (hf : m.file = some f)
    (hes : m.list_entities = .ok es)
    (hav : env.h5py_available = true) (hw : env.h5_writable = true) :
    ∃ st fi, m.info = .ok fi ∧ convert env p = .ok st ∧
      st.2 = (es.enum.zip (convertOutcomes m (initH5 fi) es.enum)).flatMap
               (pairEvents es.length) ++
             [ConvEvent.progress es.length es.length "Conversion complete"] ∧
      progressCalls st.2 =
        (es.enum.map fun q => (q.1, es.length, "Converting " ++ q.2.label)) ++
        [(es.length, es.length, "Conversion complete")] ∧
      (progressCalls st.2).length = es.length + 1 := by
  rw [list_entities_open hf] at hes
  have hE := Except.ok.inj hes
  subst hE
  obtain ⟨fi, hfi⟩ := info_open hf
  have hout : ∀ ev ∈ convertOutcomes m (initH5 fi) (summariesOf f).enum,
      isOutcome ev = true :=
    fun ev h => convertOutcomes_isOutcome m _ _ ev h
  have hlog := convertLoop_log m (summariesOf f).length (summariesOf f).enum
    (initH5 fi) []
  have hshape :
      (convertLoop m (summariesOf f).length (initH5 fi, [])
          (summariesOf f).enum).2 ++
        [ConvEvent.progress (summariesOf f).length (summariesOf f).length
          "Conversion complete"] =
      ((summariesOf f).enum.zip
          (convertOutcomes m (initH5 fi) (summariesOf f).enum)).flatMap
        (pairEvents (summariesOf f).length) ++
      [ConvEvent.progress (summariesOf f).length (summariesOf f).length
        "Conversion complete"] := by
    rw [hlog]
    simp
  have hpc :
      progressCalls
        ((convertLoop m (summariesOf f).length (initH5 fi, [])
            (summariesOf f).enum).2 ++
          [ConvEvent.progress (summariesOf f).length (summariesOf f).length
            "Conversion complete"]) =
      ((summariesOf f).enum.map fun q =>
        (q.1, (summariesOf f).length, "Converting " ++ q.2.label)) ++
      [((summariesOf f).length, (summariesOf f).length,
        "Conversion complete")] := by
    rw [hshape, progressCalls_append]
    rw [progressCalls_bind _ _ _
      (convertOutcomes_length m (summariesOf f).enum (initH5 fi)) hout]
    rfl
  refine ⟨_, fi, hfi, convert_ok env p m f fi hm hf hav hw hfi, hshape, hpc, ?_⟩
  rw [hpc]
  simp

/-- Counterexample for C8: on the one-entity file `file1` the final
progress invocation is `(1, 1, "Conversion complete")`, not
`(1, 1, "done")` as the claim's literal requires. -/
theorem C8_counterexample :
    progressCalls (convertLog env2 "d.mcd") =
      [(0, 1, "Converting Trig"), (1, 1, "Conversion complete")] ∧
    (progressCalls (convertLog env2 "d.mcd")).getLast? ≠
      some (1, 1, "done") := by
  constructor
  · decide
  · decide

/-- Witness for C8 (amended) on the five-entity `file0` opened through
`env1`. -/
theorem C8_witness :
    ∃ st fi, m0.info = .ok fi ∧ convert env1 "d.mcd" = .ok st ∧
      st.2 = ((summariesOf file0).enum.zip
               (convertOutcomes m0 (initH5 fi) (summariesOf file0).enum)).flatMap
               (pairEvents (summariesOf file0).length) ++
             [ConvEvent.progress (summariesOf file0).length
               (summariesOf file0).length "Conversion complete"] ∧
      progressCalls st.2 =
        ((summariesOf file0).enum.map fun q =>
          (q.1, (summariesOf file0).length, "Converting " ++ q.2.label)) ++
        [((summariesOf file0).length, (summariesOf file0).length,
          "Conversion complete")] ∧
      (progressCalls st.2).length = (summariesOf file0).length + 1 :=
  C8_progress_invocations env1 "d.mcd" m0 file0 (summariesOf file0)
    rfl rfl rfl rfl rfl

/-- Witness for C10: entity 4 of `file0` is the event entity with a
heterogeneous value list, so the numeric conversion fails and the original
ordered list is returned. -/
theorem C10_witness :
    ∃ r, m0.get_event_data 4 = .ok r ∧
      r.timestamps.length = hetEnt.item_count ∧
      r.timestamps = hetEnt.events.map Prod.fst ∧
      r.values.asList = hetEnt.events.map Prod.snd ∧
      (toNumArray (hetEnt.events.map Prod.snd) = none →
        r.values = .heterogeneous (hetEnt.events.map Prod.snd)) :=
  C10_get_event_data_complete m0 file0 hetEnt 4 rfl rfl (by decide)

end MCD2DH5
